import Mathlib

/-!
Verification of the mnist-bot load-generation harness (src/main.go): a shallow
embedding of its metrics aggregation, dispatch outcome handling, bounded log,
data loading, random sample selection, and shutdown coordination, followed by
theorems checking the specified properties against the embedded code.
-/

namespace MnistBot

/-- Mirror of the global metrics variables of main.go (lines 33-39):
totalRequests, successRequests, failedRequests, averageLatency, latencies. -/
structure Metrics where
  totalRequests : Nat
  successRequests : Nat
  failedRequests : Nat
  averageLatency : ℚ
  latencies : List ℚ

/-- Initial (zero) state of the global metrics variables. -/
def initMetrics : Metrics := ⟨0, 0, 0, 0, []⟩

/-- calculateAverageLatency (main.go lines 171-177): sums the recorded
latencies with a running accumulator and divides by their count. -/
def calculateAverageLatency (latencies : List ℚ) : ℚ :=
  (latencies.foldl (· + ·) 0) / (latencies.length : ℚ)

/-- Outcome of the post-response section of sendData (main.go lines 136-167):
exactly one of reading the body, creating the results directory, opening the
results file, or writing the entry fails, or everything is persisted. -/
inductive PostStep where
  | readError
  | mkdirError
  | openError
  | writeError
  | persisted
  deriving DecidableEq

/-- Environment outcome of one sendData call: JSON marshaling fails, the HTTP
POST fails in transport, or a response arrives with the given status code and
measured elapsed latency in milliseconds, followed by the given post-response
step. -/
inductive DispatchEvent where
  | marshalError
  | transportError
  | response (status : Nat) (latency : ℚ) (post : PostStep)
  deriving DecidableEq

/-- Observable effects of one sendData call: the resulting metrics state, the
log messages appended via logToWidget (in order), and the number of
metricsMutex critical sections entered. -/
structure DispatchEffects where
  metrics : Metrics
  logs : List String
  metricsLockCount : Nat

/-- Message appended by the post-response section of sendData
(main.go lines 136-167): exactly one of these five is logged. -/
def postMessage : PostStep → String
  | .readError => "Error reading response"
  | .mkdirError => "Error creating directory"
  | .openError => "Error opening file"
  | .writeError => "Error writing response to file"
  | .persisted => "Request sent and response saved successfully"

/-- sendData (main.go lines 96-168). On a marshal error it only logs and
returns. On a transport error it logs and increments failedRequests alone.
On a response it enters the metrics critical section once: status 200
increments totalRequests and successRequests, appends the latency and
recomputes the average; any other status increments totalRequests and
failedRequests and logs the status. The function then continues to read and
persist the body regardless of the status, logging exactly one more message. -/
def sendData (m : Metrics) (ev : DispatchEvent) : DispatchEffects :=
  match ev with
  | .marshalError =>
    { metrics := m, logs := ["Error marshaling JSON"], metricsLockCount := 0 }
  | .transportError =>
    { metrics := { m with failedRequests := m.failedRequests + 1 },
      logs := ["Error sending request"], metricsLockCount := 1 }
  | .response status latency post =>
    if status = 200 then
      let ls := m.latencies ++ [latency]
      { metrics := { m with
          totalRequests := m.totalRequests + 1,
          successRequests := m.successRequests + 1,
          latencies := ls,
          averageLatency := calculateAverageLatency ls },
        logs := [postMessage post],
        metricsLockCount := 1 }
    else
      { metrics := { m with
          totalRequests := m.totalRequests + 1,
          failedRequests := m.failedRequests + 1 },
        logs := ["Request failed with status " ++ toString status, postMessage post],
        metricsLockCount := 1 }

/-- Sequential composition of completed sendData calls: metricsMutex
serializes every metrics update, so the metrics state after any interleaving
of completed dispatches equals the state after some sequence of them. -/
def runDispatches (m : Metrics) : List DispatchEvent → Metrics
  | [] => m
  | ev :: evs => runDispatches (sendData m ev).metrics evs

/-- logToWidget (main.go lines 201-208): append the message; if the length
then exceeds 10, drop the oldest entry. -/
def logToWidget (entries : List String) (message : String) : List String :=
  let appended := entries ++ [message]
  if appended.length > 10 then appended.drop 1 else appended

/-- One CSV record as produced by reader.Read (main.go lines 64-71): either a
read error, or a list of fields each of which parses as a float (some value)
or not (none); strconv.ParseFloat is abstracted by this Option. -/
inductive CSVRow where
  | readError
  | fields (fs : List (Option ℚ))

/-- The inner field loop of the CSV branch (main.go lines 73-80): a row yields
a sample exactly when every field parses. -/
def parseRow : List (Option ℚ) → Option (List ℚ)
  | [] => some []
  | f :: fs =>
    match f with
    | none => none
    | some q => (parseRow fs).map (fun rest => q :: rest)

/-- The CSV loop of loadMNISTData (main.go lines 63-82): each parsed row is
appended to the global sample slice before the next row is read, so an error
return leaves the rows already parsed in the store. Returns the final store
and whether the load succeeded. -/
def loadCSVLoop (samples : List (List ℚ)) : List CSVRow → (List (List ℚ)) × Bool
  | [] => (samples, true)
  | .readError :: _ => (samples, false)
  | .fields fs :: rest =>
    match parseRow fs with
    | none => (samples, false)
    | some s => loadCSVLoop (samples ++ [s]) rest

/-- Result of running decoder.Decode(&mnistSamples) on a file's bytes
(main.go lines 57-58), following encoding/json: syntactically malformed JSON
is rejected before unmarshaling and the target slice is left unchanged; valid
JSON with an element of the wrong type raises an UnmarshalTypeError but
"completes the unmarshaling as best it can", overwriting the target slice
with the partially decoded value (carried here) while still returning an
error; a fully valid array decodes successfully. -/
inductive JSONDecode where
  | syntaxError
  | typeError (decoded : List (List ℚ))
  | ok (decoded : List (List ℚ))
  deriving DecidableEq

/-- The JSON branch of loadMNISTData (main.go lines 56-60): the decode writes
directly into the global sample slice, so a successful decode replaces it, a
syntax error leaves it unchanged and errors, and a type error overwrites it
with the partially decoded value and still errors. -/
def loadJSON (samples : List (List ℚ)) : JSONDecode → (List (List ℚ)) × Bool
  | .syntaxError => (samples, false)
  | .typeError decoded => (decoded, false)
  | .ok decoded => (decoded, true)

/-- The extension check of loadMNISTData (main.go line 55):
len(filename) > 5 && filename[len(filename)-5:] == ".json", with filenames
modelled as character lists. -/
def hasJsonSuffix (filename : List Char) : Bool :=
  decide (5 < filename.length) &&
    decide (filename.drop (filename.length - 5) = ['.', 'j', 's', 'o', 'n'])

/-- A data file: whether os.Open succeeds, the result of decoding its bytes
as JSON, and its bytes read as CSV records. -/
structure FileData where
  readable : Bool
  asJSON : JSONDecode
  asCSV : List CSVRow

/-- loadMNISTData (main.go lines 47-87): open the file, then decode according
to the filename extension. Takes and returns the global sample store. -/
def loadMNISTData (samples : List (List ℚ)) (filename : List Char) (file : FileData) :
    (List (List ℚ)) × Bool :=
  if file.readable then
    if hasJsonSuffix filename then loadJSON samples file.asJSON
    else loadCSVLoop samples file.asCSV
  else (samples, false)

/-- The samples parsed before the first malformed record of a CSV input,
together with whether the whole input parses. -/
def parsedUntilError : List CSVRow → (List (List ℚ)) × Bool
  | [] => ([], true)
  | .readError :: _ => ([], false)
  | .fields fs :: rest =>
    match parseRow fs with
    | none => ([], false)
    | some s =>
      let r := parsedUntilError rest
      (s :: r.1, r.2)

/-- generateRandomMNISTData (main.go lines 90-93): rand.Intn(n) panics for
n = 0 (modelled as none) and otherwise returns some index below n, modelled by
reducing an arbitrary random value r modulo the sample count. -/
def generateRandomMNISTData (samples : List (List ℚ)) (r : Nat) : Option (List ℚ) :=
  if h : 0 < samples.length then
    some (samples.get ⟨r % samples.length, Nat.mod_lt r h⟩)
  else none

/-- State of the shutdown protocol of main (main.go lines 253-315): whether
quitChan has been closed, whether close was called on an already-closed
channel (a Go runtime panic), whether a q keystroke and an OS stop signal are
still pending, and whether the UI goroutine and the main select have finished
their shutdown handling. -/
structure ShutdownState where
  quitClosed : Bool
  panicked : Bool
  qPending : Bool
  sigPending : Bool
  uiDone : Bool
  mainDone : Bool
  deriving DecidableEq

/-- close(quitChan): closing an already-closed channel panics at runtime. -/
def closeQuit (s : ShutdownState) : ShutdownState :=
  if s.quitClosed then { s with panicked := true } else { s with quitClosed := true }

/-- Scheduler choices in the shutdown protocol. A Go select statement with
several ready cases picks one pseudo-randomly, so with quitChan closed and a
keyboard event pending the UI goroutine (main.go lines 275-306) may take
either branch; likewise the main select (lines 309-315) with both a signal
and a closed quitChan ready. -/
inductive ShutdownEvent where
  | uiQuitKey
  | uiObserveQuit
  | mainSignal
  | mainObserveQuit

/-- One step of the shutdown protocol: uiQuitKey is the UI goroutine handling
the q keystroke (log, close(quitChan), return; main.go lines 281-285);
uiObserveQuit is its quitChan case (line 278); mainSignal is the main select
handling a stop signal (log, close(quitChan); lines 310-312); mainObserveQuit
is its quitChan case (line 313). A panicked state takes no further steps. -/
def shutdownStep (s : ShutdownState) : ShutdownEvent → Option ShutdownState
  | .uiQuitKey =>
    if s.panicked = false && s.uiDone = false && s.qPending then
      some { closeQuit s with qPending := false, uiDone := true }
    else none
  | .uiObserveQuit =>
    if s.panicked = false && s.uiDone = false && s.quitClosed then
      some { s with uiDone := true }
    else none
  | .mainSignal =>
    if s.panicked = false && s.mainDone = false && s.sigPending then
      some { closeQuit s with sigPending := false, mainDone := true }
    else none
  | .mainObserveQuit =>
    if s.panicked = false && s.mainDone = false && s.quitClosed then
      some { s with mainDone := true }
    else none

/-- Initial shutdown state in which the user has pressed q and an OS stop
signal has been delivered, neither yet handled. -/
def initShutdown : ShutdownState :=
  { quitClosed := false, panicked := false, qPending := true, sigPending := true,
    uiDone := false, mainDone := false }

/-- Run a sequence of scheduler choices; none if some step is not enabled. -/
def shutdownRun (s : ShutdownState) : List ShutdownEvent → Option ShutdownState
  | [] => some s
  | ev :: evs =>
    match shutdownStep s ev with
    | none => none
    | some s2 => shutdownRun s2 evs

/-- WaitGroup-visible state of main and startBot: wg is the sync.WaitGroup
counter; running counts startBot goroutines still in their tick loop; inflight
counts spawned sendData goroutines that have not returned. wg.Add(1) runs in
main before each go startBot (line 261) and in the worker before each
go sendData (line 190); wg.Done runs when startBot returns (line 181) and
when sendData returns (line 97) - all on the same WaitGroup. -/
structure BotSystem where
  wg : Nat
  running : Nat
  inflight : Nat
  deriving DecidableEq

/-- Events of the worker pool: main spawns a worker, a running worker ticks
and spawns a dispatch, a running worker observes quitChan and exits its tick
loop, or an in-flight sendData goroutine returns. -/
inductive BotEvent where
  | spawnWorker
  | tick
  | workerExit
  | dispatchDone

/-- One step of the worker pool, updating the shared WaitGroup counter
exactly where the code calls Add and Done. -/
def botStep (s : BotSystem) : BotEvent → Option BotSystem
  | .spawnWorker => some ⟨s.wg + 1, s.running + 1, s.inflight⟩
  | .tick => if 0 < s.running then some ⟨s.wg + 1, s.running, s.inflight + 1⟩ else none
  | .workerExit => if 0 < s.running then some ⟨s.wg - 1, s.running - 1, s.inflight⟩ else none
  | .dispatchDone => if 0 < s.inflight then some ⟨s.wg - 1, s.running, s.inflight - 1⟩ else none

/-- Initial worker-pool state: no workers, no dispatches, counter zero. -/
def initBotSystem : BotSystem := ⟨0, 0, 0⟩

/-- Run a sequence of worker-pool events; none if some step is not enabled. -/
def botRun (s : BotSystem) : List BotEvent → Option BotSystem
  | [] => some s
  | ev :: evs =>
    match botStep s ev with
    | none => none
    | some s2 => botRun s2 evs

/-- wg.Wait() (main.go line 317) returns exactly when the counter is zero. -/
def waitReturns (s : BotSystem) : Bool := s.wg == 0

/-- Events that reached the response branch of sendData. -/
def isResponseEvent : DispatchEvent → Bool
  | .response _ _ _ => true
  | _ => false

/-- Events recorded as successes: a response with status exactly 200. -/
def isSuccessEvent : DispatchEvent → Bool
  | .response status _ _ => status == 200
  | _ => false

/-- Events that increment failedRequests: transport errors and non-200
responses. -/
def isRecordedFailureEvent : DispatchEvent → Bool
  | .marshalError => false
  | .transportError => true
  | .response status _ _ => !(status == 200)

/-- Transport-error events. -/
def isTransportErrorEvent : DispatchEvent → Bool
  | .transportError => true
  | _ => false

/-- Responses with a status other than 200. -/
def isNon200ResponseEvent : DispatchEvent → Bool
  | .response status _ _ => !(status == 200)
  | _ => false

/-- A run consisting only of successful dispatches with the given latencies. -/
def successRun (Ls : List ℚ) : Metrics :=
  runDispatches initMetrics (Ls.map (fun L => DispatchEvent.response 200 L PostStep.persisted))

theorem sendData_total (m : Metrics) (ev : DispatchEvent) :
    (sendData m ev).metrics.totalRequests
      = m.totalRequests + (if isResponseEvent ev then 1 else 0) := by
  cases ev with
  | marshalError => simp [sendData, isResponseEvent]
  | transportError => simp [sendData, isResponseEvent]
  | response status lat post =>
    by_cases h : status = 200 <;> simp [sendData, isResponseEvent, h]

theorem sendData_success (m : Metrics) (ev : DispatchEvent) :
    (sendData m ev).metrics.successRequests
      = m.successRequests + (if isSuccessEvent ev then 1 else 0) := by
  cases ev with
  | marshalError => simp [sendData, isSuccessEvent]
  | transportError => simp [sendData, isSuccessEvent]
  | response status lat post =>
    by_cases h : status = 200 <;> simp [sendData, isSuccessEvent, h]

theorem sendData_failed (m : Metrics) (ev : DispatchEvent) :
    (sendData m ev).metrics.failedRequests
      = m.failedRequests + (if isRecordedFailureEvent ev then 1 else 0) := by
  cases ev with
  | marshalError => simp [sendData, isRecordedFailureEvent]
  | transportError => simp [sendData, isRecordedFailureEvent]
  | response status lat post =>
    by_cases h : status = 200 <;> simp [sendData, isRecordedFailureEvent, h]

theorem runDispatches_counts (evs : List DispatchEvent) (m : Metrics) :
    (runDispatches m evs).totalRequests
        = m.totalRequests + (evs.filter isResponseEvent).length ∧
      (runDispatches m evs).successRequests
        = m.successRequests + (evs.filter isSuccessEvent).length ∧
      (runDispatches m evs).failedRequests
        = m.failedRequests + (evs.filter isRecordedFailureEvent).length := by
  induction evs generalizing m with
  | nil => simp [runDispatches]
  | cons ev evs ih =>
    obtain ⟨h1, h2, h3⟩ := ih (sendData m ev).metrics
    refine ⟨?_, ?_, ?_⟩ <;>
      simp only [runDispatches, h1, h2, h3, sendData_total, sendData_success,
        sendData_failed, List.filter_cons] <;>
      split <;> simp <;> omega

theorem filter_event_counts (evs : List DispatchEvent) :
    (evs.filter isSuccessEvent).length + (evs.filter isRecordedFailureEvent).length
      = (evs.filter isResponseEvent).length + (evs.filter isTransportErrorEvent).length := by
  induction evs with
  | nil => simp
  | cons ev evs ih =>
    cases ev with
    | marshalError =>
      simpa [List.filter_cons, isSuccessEvent, isRecordedFailureEvent,
        isResponseEvent, isTransportErrorEvent] using ih
    | transportError =>
      simp [List.filter_cons, isSuccessEvent, isRecordedFailureEvent,
        isResponseEvent, isTransportErrorEvent]
      omega
    | response status lat post =>
      by_cases h : status = 200 <;>
        simp [List.filter_cons, isSuccessEvent, isRecordedFailureEvent,
          isResponseEvent, isTransportErrorEvent, h] <;>
        omega

/-- Claim C1 (amended): after any sequence of completed dispatches,
totalRequests equals the number of dispatches that received an HTTP response
(transport failures and marshal errors are not counted in totalRequests);
a non-200 response increments both totalRequests and failedRequests, but a
transport failure increments only failedRequests, so
successRequests + failedRequests equals totalRequests plus the number of
transport failures. -/
theorem metrics_counts_amended (evs : List DispatchEvent) :
    (runDispatches initMetrics evs).totalRequests
        = (evs.filter isResponseEvent).length ∧
      (runDispatches initMetrics evs).successRequests
          + (runDispatches initMetrics evs).failedRequests
        = (runDispatches initMetrics evs).totalRequests
          + (evs.filter isTransportErrorEvent).length ∧
      (∀ m : Metrics,
        (sendData m DispatchEvent.transportError).metrics.failedRequests
            = m.failedRequests + 1 ∧
          (sendData m DispatchEvent.transportError).metrics.totalRequests
            = m.totalRequests) := by
  obtain ⟨h1, h2, h3⟩ := runDispatches_counts evs initMetrics
  refine ⟨by simpa [initMetrics] using h1, ?_, fun m => by simp [sendData]⟩
  have h4 := filter_event_counts evs
  simp only [h1, h2, h3, initMetrics] at *
  omega

/-- Claim C1 (counterexample): a single completed dispatch that fails in
transport leaves totalRequests at 0, so totalRequests does not equal the
number of completed dispatches (1) and successRequests + failedRequests
(= 1) differs from totalRequests. -/
theorem metrics_counts_counterexample :
    ¬ ((runDispatches initMetrics [DispatchEvent.transportError]).totalRequests = 1 ∧
        (runDispatches initMetrics [DispatchEvent.transportError]).successRequests
            + (runDispatches initMetrics [DispatchEvent.transportError]).failedRequests
          = (runDispatches initMetrics [DispatchEvent.transportError]).totalRequests) := by
  decide

/-- Claim C5 (amended): a sendData invocation enters the metrics critical
section exactly once on every branch except the JSON-marshal-error branch,
which performs no metrics update at all; it appends exactly one log message on
the marshal-error, transport-error and 200-response branches, but exactly two
on a non-200 response (the status-failure message and then one message from
the read/persist section). -/
theorem sendData_effects_amended (m : Metrics) (ev : DispatchEvent) :
    ((sendData m ev).metricsLockCount
        = match ev with
          | DispatchEvent.marshalError => 0
          | _ => 1) ∧
      ((sendData m ev).logs.length
        = match ev with
          | DispatchEvent.response status _ _ => if status = 200 then 1 else 2
          | _ => 1) := by
  cases ev with
  | marshalError => simp [sendData]
  | transportError => simp [sendData]
  | response status lat post =>
    by_cases h : status = 200 <;> simp [sendData, h]

/-- Claim C5 (counterexample): the marshal-error branch performs zero metrics
updates, and a non-200 response appends two log messages, so it is not the
case that every branch performs exactly one metrics update and one log
append. -/
theorem sendData_effects_counterexample :
    ¬ ((sendData initMetrics DispatchEvent.marshalError).metricsLockCount = 1) ∧
      ¬ ((sendData initMetrics
          (DispatchEvent.response 500 0 PostStep.persisted)).logs.length = 1) := by
  constructor <;> decide

theorem runDispatches_non200 (evs : List DispatchEvent) (m : Metrics)
    (h : ∀ e ∈ evs, isNon200ResponseEvent e = true) :
    (runDispatches m evs).averageLatency = m.averageLatency ∧
      (runDispatches m evs).latencies = m.latencies ∧
      (runDispatches m evs).successRequests = m.successRequests := by
  induction evs generalizing m with
  | nil => simp [runDispatches]
  | cons ev evs ih =>
    have hev := h ev (List.mem_cons_self ev evs)
    have htail := ih (sendData m ev).metrics (fun e he => h e (List.mem_cons_of_mem ev he))
    cases ev with
    | marshalError => exact absurd hev (by simp [isNon200ResponseEvent])
    | transportError => exact absurd hev (by simp [isNon200ResponseEvent])
    | response status lat post =>
      have hs : ¬ status = 200 := by
        simpa [isNon200ResponseEvent] using hev
      obtain ⟨h1, h2, h3⟩ := htail
      refine ⟨?_, ?_, ?_⟩ <;>
        simp only [runDispatches, h1, h2, h3] <;> simp [sendData, hs]

/-- Claim C6: a dispatch that received a response records a success exactly
when the status is 200, in which case the measured latency is appended to the
latency sequence; every non-200 status records a failure, logs a message
carrying the status, and leaves the latency sequence and the average
untouched, so a run of only non-200 responses keeps averageLatency at its
initial value and successRequests at zero. -/
theorem sendData_status_spec :
    (∀ (m : Metrics) (status : Nat) (lat : ℚ) (post : PostStep),
      ((sendData m (DispatchEvent.response status lat post)).metrics.successRequests
          = m.successRequests + 1 ↔ status = 200) ∧
      (status = 200 →
        (sendData m (DispatchEvent.response status lat post)).metrics.latencies
            = m.latencies ++ [lat] ∧
          (sendData m (DispatchEvent.response status lat post)).metrics.failedRequests
            = m.failedRequests) ∧
      (¬ status = 200 →
        (sendData m (DispatchEvent.response status lat post)).metrics.latencies
            = m.latencies ∧
          (sendData m (DispatchEvent.response status lat post)).metrics.averageLatency
            = m.averageLatency ∧
          (sendData m (DispatchEvent.response status lat post)).metrics.failedRequests
            = m.failedRequests + 1 ∧
          (sendData m (DispatchEvent.response status lat post)).metrics.successRequests
            = m.successRequests ∧
          ("Request failed with status " ++ toString status)
            ∈ (sendData m (DispatchEvent.response status lat post)).logs)) ∧
      (∀ evs : List DispatchEvent,
        (∀ e ∈ evs, isNon200ResponseEvent e = true) →
        (runDispatches initMetrics evs).averageLatency = initMetrics.averageLatency ∧
          (runDispatches initMetrics evs).successRequests = 0) := by
  constructor
  · intro m status lat post
    by_cases h : status = 200 <;> simp [sendData, h]
  · intro evs h
    obtain ⟨h1, _, h3⟩ := runDispatches_non200 evs initMetrics h
    exact ⟨h1, by simpa [initMetrics] using h3⟩

/-- Claim C6 (witness): concrete checks at a 500 response, a 200 response and
a one-event all-500 run. -/
theorem sendData_status_spec_witness :
    (sendData initMetrics (DispatchEvent.response 500 0 PostStep.persisted)).metrics.latencies
        = initMetrics.latencies ∧
      (sendData initMetrics (DispatchEvent.response 200 1 PostStep.persisted)).metrics.latencies
        = initMetrics.latencies ++ [1] ∧
      (runDispatches initMetrics
          [DispatchEvent.response 500 0 PostStep.persisted]).averageLatency
        = initMetrics.averageLatency :=
  ⟨((sendData_status_spec.1 initMetrics 500 0 PostStep.persisted).2.2 (by decide)).1,
    ((sendData_status_spec.1 initMetrics 200 1 PostStep.persisted).2.1 rfl).1,
    (sendData_status_spec.2 [DispatchEvent.response 500 0 PostStep.persisted] (by decide)).1⟩

theorem foldl_add_eq (l : List ℚ) (a : ℚ) : l.foldl (· + ·) a = a + l.sum := by
  induction l generalizing a with
  | nil => simp
  | cons x xs ih => rw [List.foldl_cons, ih, List.sum_cons]; ring

theorem calculateAverageLatency_eq (l : List ℚ) :
    calculateAverageLatency l = l.sum / (l.length : ℚ) := by
  simp [calculateAverageLatency, foldl_add_eq]

theorem successRun_general (Ls : List ℚ) (m : Metrics) :
    (runDispatches m
        (Ls.map (fun L => DispatchEvent.response 200 L PostStep.persisted))).latencies
        = m.latencies ++ Ls ∧
      (runDispatches m
          (Ls.map (fun L => DispatchEvent.response 200 L PostStep.persisted))).totalRequests
        = m.totalRequests + Ls.length ∧
      (runDispatches m
          (Ls.map (fun L => DispatchEvent.response 200 L PostStep.persisted))).successRequests
        = m.successRequests + Ls.length ∧
      (Ls ≠ [] →
        (runDispatches m
            (Ls.map (fun L => DispatchEvent.response 200 L PostStep.persisted))).averageLatency
          = calculateAverageLatency (m.latencies ++ Ls)) := by
  induction Ls generalizing m with
  | nil => simp [runDispatches]
  | cons L Ls ih =>
    obtain ⟨ih1, ih2, ih3, ih4⟩ :=
      ih (sendData m (DispatchEvent.response 200 L PostStep.persisted)).metrics
    refine ⟨?_, ?_, ?_, ?_⟩
    · simp only [List.map_cons, runDispatches, ih1]
      simp [sendData]
    · simp only [List.map_cons, runDispatches, ih2]
      simp [sendData]
      omega
    · simp only [List.map_cons, runDispatches, ih3]
      simp [sendData]
      omega
    · intro _
      by_cases hLs : Ls = []
      · subst hLs
        simp [runDispatches, sendData]
      · have h4 := ih4 hLs
        simp only [List.map_cons, runDispatches, h4]
        simp [sendData, List.append_assoc]

/-- Claim C7: each success recording increments totalRequests and
successRequests, appends its latency to the latency sequence, and recomputes
averageLatency as the arithmetic mean of all latencies recorded to date;
hence after a non-empty run of successes with latencies Ls, the stored
average equals (sum Ls) / (length Ls). -/
theorem recordSuccess_mean_spec :
    (∀ (m : Metrics) (L : ℚ) (post : PostStep),
      (sendData m (DispatchEvent.response 200 L post)).metrics.totalRequests
          = m.totalRequests + 1 ∧
        (sendData m (DispatchEvent.response 200 L post)).metrics.successRequests
          = m.successRequests + 1 ∧
        (sendData m (DispatchEvent.response 200 L post)).metrics.latencies
          = m.latencies ++ [L] ∧
        (sendData m (DispatchEvent.response 200 L post)).metrics.averageLatency
          = (m.latencies ++ [L]).sum / (((m.latencies ++ [L]).length : Nat) : ℚ)) ∧
      (∀ Ls : List ℚ, Ls ≠ [] →
        (successRun Ls).latencies = Ls ∧
          (successRun Ls).averageLatency = Ls.sum / ((Ls.length : Nat) : ℚ) ∧
          (successRun Ls).totalRequests = Ls.length ∧
          (successRun Ls).successRequests = Ls.length) := by
  constructor
  · intro m L post
    simp [sendData, calculateAverageLatency_eq]
  · intro Ls hLs
    obtain ⟨h1, h2, h3, h4⟩ := successRun_general Ls initMetrics
    refine ⟨?_, ?_, ?_, ?_⟩
    · simpa [successRun, initMetrics] using h1
    · have := h4 hLs
      simp only [successRun, initMetrics] at this ⊢
      rw [this]
      simp [calculateAverageLatency_eq]
    · simpa [successRun, initMetrics] using h2
    · simpa [successRun, initMetrics] using h3

/-- Claim C7 (witness): a run of two successes with latencies 1 and 3 ends
with average 2 and two successes. -/
theorem recordSuccess_mean_spec_witness :
    (successRun [1, 3]).averageLatency = 2 ∧
      (successRun [1, 3]).totalRequests = 2 := by
  have h := recordSuccess_mean_spec.2 [1, 3] (by decide)
  refine ⟨?_, h.2.2.1⟩
  rw [h.2.1]
  norm_num

theorem logToWidget_foldl (msgs : List String) :
    List.foldl logToWidget [] msgs = msgs.drop (msgs.length - 10) := by
  induction msgs using List.reverseRecOn with
  | nil => simp
  | append_singleton msgs m ih =>
    rw [List.foldl_append, List.foldl_cons, List.foldl_nil, ih]
    simp only [logToWidget, List.length_append, List.length_drop, List.length_singleton]
    by_cases h : msgs.length < 10
    · have h0 : msgs.length - 10 = 0 := by omega
      have h1 : msgs.length + 1 - 10 = 0 := by omega
      simp [h0, h1]
      try omega
    · have h0 : msgs.length - (msgs.length - 10) = 10 := by omega
      have hle : msgs.length - 10 ≤ msgs.length := by omega
      have h1 : msgs.length + 1 - 10 = (msgs.length - 10) + 1 := by omega
      rw [h0]
      simp only [show (10 + 1 > 10) = True by simp, if_true]
      rw [List.drop_append_of_le_length (by simp [List.length_drop]; omega),
        List.drop_drop, h1,
        List.drop_append_of_le_length (by omega)]

/-- Claim C8: appending to a log of at most 10 entries leaves at most 10
entries, and appending any N > 10 messages in order to the empty log leaves
exactly the last 10 of them in their original relative order. -/
theorem boundedLog_spec :
    (∀ (l : List String) (message : String),
      l.length ≤ 10 → (logToWidget l message).length ≤ 10) ∧
      (∀ msgs : List String, 10 < msgs.length →
        List.foldl logToWidget [] msgs = msgs.drop (msgs.length - 10)) := by
  constructor
  · intro l message h
    simp only [logToWidget, List.length_append, List.length_singleton]
    split <;> simp <;> omega
  · intro msgs _
    exact logToWidget_foldl msgs

/-- Claim C8 (witness): one append keeps the bound, and appending eleven
messages leaves the last ten in order. -/
theorem boundedLog_spec_witness :
    (logToWidget [] "a").length ≤ 10 ∧
      List.foldl logToWidget []
          ["a", "b", "c", "d", "e", "f", "g", "h", "i", "j", "k"]
        = ["b", "c", "d", "e", "f", "g", "h", "i", "j", "k"] := by
  constructor
  · exact boundedLog_spec.1 [] "a" (by decide)
  · have h := boundedLog_spec.2
      ["a", "b", "c", "d", "e", "f", "g", "h", "i", "j", "k"] (by decide)
    simpa using h

theorem loadCSVLoop_eq (rows : List CSVRow) (samples : List (List ℚ)) :
    loadCSVLoop samples rows
      = (samples ++ (parsedUntilError rows).1, (parsedUntilError rows).2) := by
  induction rows generalizing samples with
  | nil => simp [loadCSVLoop, parsedUntilError]
  | cons row rest ih =>
    cases row with
    | readError => simp [loadCSVLoop, parsedUntilError]
    | fields fs =>
      cases hp : parseRow fs with
      | none => simp [loadCSVLoop, parsedUntilError, hp]
      | some s =>
        simp only [loadCSVLoop, parsedUntilError, hp, ih (samples ++ [s])]
        simp [List.append_assoc]

/-- Claim C2 (amended): only an unreadable file or syntactically malformed
JSON leaves the store unchanged on failure; valid JSON containing a non-float
element fails the load while overwriting the store with the partially decoded
value, and a malformed CSV input fails while retaining in the store every row
parsed before the first error - the load is atomic for neither format. -/
theorem loadMNISTData_spec :
    (∀ (samples : List (List ℚ)) (filename : List Char) (file : FileData),
      file.readable = false → loadMNISTData samples filename file = (samples, false)) ∧
      (∀ (samples : List (List ℚ)) (filename : List Char) (file : FileData),
        file.readable = true → hasJsonSuffix filename = true →
        file.asJSON = JSONDecode.syntaxError →
        loadMNISTData samples filename file = (samples, false)) ∧
      (∀ (samples : List (List ℚ)) (filename : List Char) (file : FileData)
        (d : List (List ℚ)),
        file.readable = true → hasJsonSuffix filename = true →
        file.asJSON = JSONDecode.typeError d →
        loadMNISTData samples filename file = (d, false)) ∧
      (∀ (samples : List (List ℚ)) (filename : List Char) (file : FileData),
        file.readable = true → hasJsonSuffix filename = false →
        loadMNISTData samples filename file
          = (samples ++ (parsedUntilError file.asCSV).1,
              (parsedUntilError file.asCSV).2)) := by
  refine ⟨?_, ?_, ?_, ?_⟩
  · intro samples filename file h
    simp [loadMNISTData, h]
  · intro samples filename file h hj hn
    simp [loadMNISTData, h, hj, hn, loadJSON]
  · intro samples filename file d h hj hn
    simp [loadMNISTData, h, hj, hn, loadJSON]
  · intro samples filename file h hj
    simp [loadMNISTData, h, hj, loadCSVLoop_eq]

/-- Claim C2 (witness): an unreadable file leaves the store unchanged, a JSON
type error overwrites the store with the partial decode while failing, and a
CSV file whose second record errors retains the first parsed row. -/
theorem loadMNISTData_spec_witness :
    loadMNISTData [] ['d', '.', 'c', 's', 'v']
        { readable := false, asJSON := JSONDecode.syntaxError, asCSV := [] }
        = ([], false) ∧
      loadMNISTData [[9]] ['d', '.', 'j', 's', 'o', 'n']
        { readable := true, asJSON := JSONDecode.typeError [[0], [2]], asCSV := [] }
        = ([[0], [2]], false) ∧
      loadMNISTData [[5]] ['d', '.', 'c', 's', 'v']
        { readable := true, asJSON := JSONDecode.syntaxError,
          asCSV := [CSVRow.fields [some 1], CSVRow.readError] }
        = ([[5], [1]], false) := by
  refine ⟨?_, ?_, ?_⟩
  · exact loadMNISTData_spec.1 [] ['d', '.', 'c', 's', 'v'] _ rfl
  · exact loadMNISTData_spec.2.2.1 [[9]] ['d', '.', 'j', 's', 'o', 'n']
      { readable := true, asJSON := JSONDecode.typeError [[0], [2]], asCSV := [] }
      [[0], [2]] rfl (by decide) rfl
  · have h := loadMNISTData_spec.2.2.2 [[5]] ['d', '.', 'c', 's', 'v']
      { readable := true, asJSON := JSONDecode.syntaxError,
        asCSV := [CSVRow.fields [some 1], CSVRow.readError] } rfl (by decide)
    rw [h]
    decide

/-- Claim C2 (counterexample): loading the CSV records "1,2" then an
unparsable field from the empty store fails yet leaves the parsed row [1, 2]
in the store, and loading the valid-JSON-wrong-type file [["a"],[2]] (whose
partial decode is [[0],[2]]) over the store [[9]] fails yet overwrites the
store - a failed load changes the sample store in both formats. -/
theorem load_atomicity_counterexample :
    loadMNISTData [] ['d', '.', 'c', 's', 'v']
        { readable := true, asJSON := JSONDecode.syntaxError,
          asCSV := [CSVRow.fields [some 1, some 2], CSVRow.fields [none]] }
      = ([[1, 2]], false) ∧ ([[1, 2]] : List (List ℚ)) ≠ [] ∧
      loadMNISTData [[9]] ['d', '.', 'j', 's', 'o', 'n']
        { readable := true, asJSON := JSONDecode.typeError [[0], [2]], asCSV := [] }
      = ([[0], [2]], false) ∧ ([[0], [2]] : List (List ℚ)) ≠ [[9]] := by
  refine ⟨by decide, by decide, by decide, by decide⟩

/-- Claim C9 (amended): the extension check demands strictly more than five
characters besides the ".json" suffix, so a path selects JSON decoding iff it
ends in ".json" and is longer than five characters; every other path -
including the five-character path ".json" itself - is decoded as CSV. -/
theorem jsonSuffix_spec (filename : List Char) :
    (hasJsonSuffix filename = true ↔
      (['.', 'j', 's', 'o', 'n'].isSuffixOf filename = true ∧ 5 < filename.length)) ∧
      (∀ (samples : List (List ℚ)) (file : FileData), file.readable = true →
        loadMNISTData samples filename file
          = if hasJsonSuffix filename then loadJSON samples file.asJSON
            else loadCSVLoop samples file.asCSV) := by
  constructor
  · simp only [hasJsonSuffix, Bool.and_eq_true, decide_eq_true_eq,
      List.isSuffixOf_iff_suffix]
    constructor
    · rintro ⟨h1, h2⟩
      refine ⟨?_, h1⟩
      rw [List.suffix_iff_eq_drop]
      simpa using h2.symm
    · rintro ⟨h1, h2⟩
      rw [List.suffix_iff_eq_drop] at h1
      exact ⟨h2, by simpa using h1.symm⟩
  · intro samples file h
    simp [loadMNISTData, h]

/-- Claim C9 (witness): a six-character path ending in ".json" selects the
JSON decoder. -/
theorem jsonSuffix_spec_witness :
    hasJsonSuffix ['a', '.', 'j', 's', 'o', 'n'] = true ∧
      loadMNISTData [] ['a', '.', 'j', 's', 'o', 'n']
          { readable := true, asJSON := JSONDecode.ok [[1]], asCSV := [] }
        = ([[1]], true) := by
  constructor
  · exact (jsonSuffix_spec ['a', '.', 'j', 's', 'o', 'n']).1.mpr ⟨by decide, by decide⟩
  · rw [(jsonSuffix_spec ['a', '.', 'j', 's', 'o', 'n']).2 [] _ rfl]
    decide

/-- Claim C9 (counterexample): the five-character path ".json" ends in the
suffix ".json" yet is decoded as CSV: on a file whose bytes form the
well-formed JSON array [[1]] but no valid CSV record, the load takes the CSV
branch and fails, while the JSON decoder would have succeeded. -/
theorem jsonSuffix_counterexample :
    (['.', 'j', 's', 'o', 'n'] : List Char).isSuffixOf ['.', 'j', 's', 'o', 'n'] = true ∧
      hasJsonSuffix ['.', 'j', 's', 'o', 'n'] = false ∧
      loadMNISTData [] ['.', 'j', 's', 'o', 'n']
          { readable := true, asJSON := JSONDecode.ok [[1]], asCSV := [CSVRow.readError] }
        = ([], false) ∧
      loadJSON [] (JSONDecode.ok [[1]]) = ([[1]], true) := by
  refine ⟨by decide, by decide, by decide, by decide⟩

/-- Claim C10: an empty CSV file or an empty JSON array loads successfully
with zero samples; generateRandomMNISTData on the empty store panics
(rand.Intn with bound 0, modelled as none), and on any non-empty store it
returns an element of the loaded sample set (its random index is in bounds). -/
theorem randomSample_spec :
    loadMNISTData [] ['d', '.', 'c', 's', 'v']
        { readable := true, asJSON := JSONDecode.syntaxError, asCSV := [] } = ([], true) ∧
      loadMNISTData [] ['d', '.', 'j', 's', 'o', 'n']
        { readable := true, asJSON := JSONDecode.ok [], asCSV := [] } = ([], true) ∧
      (∀ r : Nat, generateRandomMNISTData [] r = none) ∧
      (∀ (samples : List (List ℚ)) (r : Nat), samples ≠ [] →
        ∃ x, generateRandomMNISTData samples r = some x ∧ x ∈ samples) := by
  refine ⟨by decide, by decide, ?_, ?_⟩
  · intro r
    simp [generateRandomMNISTData]
  · intro samples r h
    have hlen : 0 < samples.length := List.length_pos.mpr h
    refine ⟨samples.get ⟨r % samples.length, Nat.mod_lt r hlen⟩, ?_, ?_⟩
    · simp [generateRandomMNISTData, hlen]
    · exact List.get_mem samples _ _

/-- Claim C10 (witness): on a one-sample store the selection returns an
element of the store. -/
theorem randomSample_spec_witness :
    ∃ x, generateRandomMNISTData [[7]] 3 = some x ∧ x ∈ [[7]] :=
  randomSample_spec.2.2.2 [[7]] 3 (by decide)

/-- Claim C3 (code bug): with both a q keystroke and an OS stop signal
pending, the main select may handle the signal and close quitChan, after
which the UI goroutine's select - picking among its simultaneously ready
cases - may still take the keyboard event and call close(quitChan) a second
time: the run reaches a panicked state (close of a closed channel in Go), so
triggering shutdown twice can panic instead of signalling exactly once. -/
theorem doubleClose_panics :
    shutdownRun initShutdown [ShutdownEvent.mainSignal, ShutdownEvent.uiQuitKey]
        = some { quitClosed := true, panicked := true, qPending := false,
                 sigPending := false, uiDone := true, mainDone := true } ∧
      (shutdownRun initShutdown
          [ShutdownEvent.mainSignal, ShutdownEvent.uiQuitKey]).map ShutdownState.panicked
        = some true := by
  constructor <;> decide

theorem botRun_invariant (evs : List BotEvent) (s0 s : BotSystem)
    (hinv : s0.wg = s0.running + s0.inflight) (h : botRun s0 evs = some s) :
    s.wg = s.running + s.inflight := by
  induction evs generalizing s0 with
  | nil =>
    simp [botRun] at h
    rw [← h]
    exact hinv
  | cons ev evs ih =>
    cases ev with
    | spawnWorker =>
      simp only [botRun, botStep] at h
      exact ih ⟨s0.wg + 1, s0.running + 1, s0.inflight⟩ (by simp; omega) h
    | tick =>
      by_cases hr : 0 < s0.running
      · simp only [botRun, botStep, if_pos hr] at h
        exact ih ⟨s0.wg + 1, s0.running, s0.inflight + 1⟩ (by simp; omega) h
      · simp [botRun, botStep, if_neg hr] at h
    | workerExit =>
      by_cases hr : 0 < s0.running
      · simp only [botRun, botStep, if_pos hr] at h
        exact ih ⟨s0.wg - 1, s0.running - 1, s0.inflight⟩ (by simp; omega) h
      · simp [botRun, botStep, if_neg hr] at h
    | dispatchDone =>
      by_cases hr : 0 < s0.inflight
      · simp only [botRun, botStep, if_pos hr] at h
        exact ih ⟨s0.wg - 1, s0.running, s0.inflight - 1⟩ (by simp; omega) h
      · simp [botRun, botStep, if_neg hr] at h

/-- Claim C4 (amended): sendData goroutines register in the same WaitGroup as
the workers, so wg.Wait() - and hence the final "All bots stopped" message -
completes exactly when every worker's tick loop has exited AND every
in-flight dispatch has completed: the supervisor does wait for dispatches
spawned before cancellation. -/
theorem wgWait_spec (evs : List BotEvent) (s : BotSystem)
    (h : botRun initBotSystem evs = some s) :
    waitReturns s = true ↔ (s.running = 0 ∧ s.inflight = 0) := by
  have hinv := botRun_invariant evs initBotSystem s (by decide) h
  simp only [waitReturns, beq_iff_eq]
  omega

/-- Claim C4 (witness): after one worker spawns, ticks once, exits, and its
dispatch completes, the wait returns. -/
theorem wgWait_spec_witness :
    waitReturns ⟨0, 0, 0⟩ = true :=
  (wgWait_spec [BotEvent.spawnWorker, BotEvent.tick, BotEvent.workerExit,
      BotEvent.dispatchDone] ⟨0, 0, 0⟩ (by decide)).mpr ⟨rfl, rfl⟩

/-- Claim C4 (counterexample): one worker spawns, ticks once (spawning a
dispatch) and exits its tick loop; every worker's tick loop has now exited,
yet the WaitGroup counter is 1 because the dispatch is still in flight, so
wg.Wait() does not complete - the supervisor does wait for in-flight
dispatches, contrary to the claim. -/
theorem wgWait_counterexample :
    botRun initBotSystem [BotEvent.spawnWorker, BotEvent.tick, BotEvent.workerExit]
        = some ⟨1, 0, 1⟩ ∧
      waitReturns ⟨1, 0, 1⟩ = false := by
  constructor <;> decide

end MnistBot
